import Mathlib

/-!
Greeter service (`impl.go`, `main.go`)

A shallow embedding of the two source files of the Go package `main`:

* `impl.go`: the type `Impl` (an empty struct) and its method `Hello`;
* `main.go`: the function `main`, which builds a tRPC server, registers an `Impl`
  as handler of one service and serves.

Go pointers are modelled as optional heap addresses, the Go heap as explicit state that
every call receives and returns, a possible run-time panic as a constructor of the call's
outcome, and the calls `main` makes into the tRPC framework as events appended to a trace.
Concurrent calls of `Hello` are goroutines that a schedule steps, one statement at a time,
on a heap they share.
The framework itself (`trpc`, `log`) and the generated package `pb` are not part of the
source files: what the source does not fix about them (the request type, the context type,
what the framework calls do) is a parameter of the definitions below.
-/

namespace Agent

/-! ## Data model -/

/-- A Go pointer: `none` is `nil`, `some a` is the address `a` of a heap object. -/
abbrev Ptr := Option Nat

/-- A non-nil value of the Go interface type `error`; the nil error is `none : Option GoError`. -/
structure GoError where
  msg : String
deriving DecidableEq, Repr

/-- The message `pb.Response`, with the one field the source assigns: `Msg`. -/
structure Response where
  Msg : String
deriving DecidableEq, Repr

/-- The handler type: `type Impl struct{}` has no field. -/
structure Impl where
deriving DecidableEq, Repr

/-- The heap objects a call of `Hello` can reach, by type; an address is an index.
`Req` is the message type `pb.Request`, which the source never looks into. -/
structure Heap (Req : Type) where
  impls : List Impl
  reqs : List Req
  rsps : List Response

/-- How a Go call ends: it returns its results, or it panics. -/
inductive Outcome (α : Type) where
  | returned (a : α)
  | panicked (reason : String)
deriving DecidableEq, Repr

/-- The response object a pointer refers to in a heap (`none` for nil or an unallocated address). -/
def Heap.response {Req : Type} (h : Heap Req) (p : Ptr) : Option Response :=
  p.bind fun a => h.rsps[a]?

/-! ## `impl.go` -/

/-- The method `func (i *Impl) Hello(ctx context.Context, req *pb.Request) (*pb.Response, error)`:
it allocates a `pb.Response` with `Msg: "Hello "` and returns its address and the nil error.
The result is the heap after the call and the outcome of the call. -/
def Impl.Hello {Ctx Req : Type} (h : Heap Req) (_i : Ptr) (_ctx : Option Ctx) (_req : Ptr) :
    Heap Req × Outcome (Ptr × Option GoError) :=
  let rsp : Ptr := some h.rsps.length
  let h1 : Heap Req := { h with rsps := h.rsps ++ [{ Msg := "Hello " }] }
  (h1, Outcome.returned (rsp, none))

/-- What a caller sees of a call of `Hello`: the response object behind the returned pointer
(`none` for a nil pointer) and the error, or the panic. -/
def observe {Req : Type} (r : Heap Req × Outcome (Ptr × Option GoError)) :
    Outcome (Option Response × Option GoError) :=
  match r.2 with
  | Outcome.returned (p, err) => Outcome.returned (r.1.response p, err)
  | Outcome.panicked reason => Outcome.panicked reason

/-- The text of the response of a call, when the call returned a non-nil response. -/
def responseText {Req : Type} (r : Heap Req × Outcome (Ptr × Option GoError)) : Option String :=
  match observe r with
  | Outcome.returned (some rsp, _) => some rsp.Msg
  | _ => none

/-- A sequence of `Hello` calls on one receiver `i`, each with its own context and request,
run one after the other on the heap the previous call left; the list of what each call returned. -/
def runCalls {Ctx Req : Type} (i : Ptr) :
    Heap Req → List (Option Ctx × Ptr) → List (Outcome (Option Response × Option GoError))
  | _, [] => []
  | h, (ctx, req) :: rest =>
    let r := Impl.Hello h i ctx req
    observe r :: runCalls i r.1 rest

/-! ## Concurrent calls of `Hello` -/

/-- A goroutine that runs one call of `Hello`: called and not yet at line 12, holding the
pointer `rsp` of lines 12-14 and not yet at the `return` of line 15, or returned. -/
inductive Goroutine (Ctx : Type) where
  | called (i : Ptr) (ctx : Option Ctx) (req : Ptr)
  | allocated (rsp : Ptr)
  | finished (result : Outcome (Ptr × Option GoError))
deriving DecidableEq, Repr

/-- One step of a goroutine on the heap it shares with the others: the allocation
`rsp := &pb.Response{Msg: "Hello "}`, then `return rsp, nil`; a returned call stays so. -/
def Goroutine.step {Ctx Req : Type} (h : Heap Req) : Goroutine Ctx → Heap Req × Goroutine Ctx
  | Goroutine.called _ _ _ =>
    ({ h with rsps := h.rsps ++ [{ Msg := "Hello " }] }, Goroutine.allocated (some h.rsps.length))
  | Goroutine.allocated rsp => (h, Goroutine.finished (Outcome.returned (rsp, none)))
  | Goroutine.finished result => (h, Goroutine.finished result)

/-- The address of the response a goroutine holds, if it holds one. -/
def Goroutine.held {Ctx : Type} : Goroutine Ctx → Option Nat
  | Goroutine.called _ _ _ => none
  | Goroutine.allocated rsp => rsp
  | Goroutine.finished (Outcome.returned (rsp, _)) => rsp
  | Goroutine.finished (Outcome.panicked _) => none

/-- How many steps of its call a goroutine has made. -/
def Goroutine.pc {Ctx : Type} : Goroutine Ctx → Nat
  | Goroutine.called _ _ _ => 0
  | Goroutine.allocated _ => 1
  | Goroutine.finished _ => 2

/-- The goroutines of concurrent calls and the heap they share. -/
structure Machine (Ctx Req : Type) where
  heap : Heap Req
  goroutines : List (Goroutine Ctx)

/-- The scheduler lets goroutine `k` make one step (nothing happens if there is no such
goroutine). -/
def Machine.step {Ctx Req : Type} (m : Machine Ctx Req) (k : Nat) : Machine Ctx Req :=
  match m.goroutines[k]? with
  | none => m
  | some g =>
    { heap := (g.step m.heap).1, goroutines := m.goroutines.set k (g.step m.heap).2 }

/-- The machine after a schedule: the list of the goroutines that step, in order. Every
interleaving of the calls is such a list. -/
def Machine.run {Ctx Req : Type} (m : Machine Ctx Req) : List Nat → Machine Ctx Req
  | [] => m
  | k :: schedule => (m.step k).run schedule

/-- One goroutine per call, all on the same receiver `i`, none of which has started. -/
def spawn {Ctx Req : Type} (h : Heap Req) (i : Ptr) (calls : List (Option Ctx × Ptr)) :
    Machine Ctx Req :=
  { heap := h, goroutines := calls.map fun c => Goroutine.called i c.1 c.2 }

/-- What each call has returned to its caller, `none` for a call that has not returned yet. -/
def Machine.results {Ctx Req : Type} (m : Machine Ctx Req) :
    List (Option (Outcome (Option Response × Option GoError))) :=
  m.goroutines.map fun g =>
    match g with
    | Goroutine.finished result => some (observe (m.heap, result))
    | _ => none

/-- The step count of goroutine `j` of a machine (0 if there is no such goroutine). -/
def Machine.pc {Ctx Req : Type} (m : Machine Ctx Req) (j : Nat) : Nat :=
  match m.goroutines[j]? with
  | some g => g.pc
  | none => 0

/-- The invariant of the runs that start on the heap `h`: the handler and request objects are
those of `h`, the responses of `h` are still there, every goroutine that is past the
allocation holds the address of a response allocated since, with `Msg` "Hello ", and no two
goroutines hold the same address. -/
def Machine.Sound {Ctx Req : Type} (h : Heap Req) (m : Machine Ctx Req) : Prop :=
  m.heap.impls = h.impls ∧ m.heap.reqs = h.reqs ∧
  (∃ t, m.heap.rsps = h.rsps ++ t) ∧
  (∀ (k : Nat) (g : Goroutine Ctx), m.goroutines[k]? = some g →
    (∃ i ctx req, g = Goroutine.called i ctx req) ∨
    ∃ a, (g = Goroutine.allocated (some a) ∨
        g = Goroutine.finished (Outcome.returned (some a, none))) ∧
      m.heap.rsps[a]? = some { Msg := "Hello " } ∧ h.rsps.length ≤ a) ∧
  (∀ (k l : Nat) (gk gl : Goroutine Ctx) (a : Nat),
    m.goroutines[k]? = some gk → m.goroutines[l]? = some gl →
    gk.held = some a → gl.held = some a → k = l)

/-! ## `main.go` -/

/-- The handle `s.Service(name)` returns: the service of that name. -/
structure ServiceHandle where
  name : String
deriving DecidableEq, Repr

/-- The calls `main` makes into the framework, in the order it makes them. -/
inductive Event where
  | NewServer (opts : List String)
  | Service (name : String)
  | RegisterServiceService (s : ServiceHandle) (handler : Ptr)
  | Serve
  | Fatal (err : GoError)
deriving DecidableEq, Repr

/-- What the framework's `s.Serve()` does when it is called, which the source does not fix:
it keeps serving and does not return, it returns an error value (`none` is the nil error),
or it panics. -/
inductive ServeResult where
  | blocks
  | returns (err : Option GoError)
  | panics (reason : String)
deriving DecidableEq, Repr

/-- The behaviour of the framework calls of `main`, which are not part of the source files:
each of `trpc.NewServer`, `s.Service` and `pb.RegisterServiceService` returns or panics
(as `NewServer` does without a configuration file, and the registration on a service that
is not configured), and `s.Serve` does one of the things of `ServeResult`. -/
structure Framework where
  NewServer : Outcome Unit
  Service : String → Outcome Unit
  RegisterServiceService : ServiceHandle → Ptr → Outcome Unit
  Serve : ServeResult

/-- A framework whose calls before `Serve` all return, with the given behaviour of `Serve`. -/
def Framework.starting (serve : ServeResult) : Framework where
  NewServer := Outcome.returned ()
  Service := fun _ => Outcome.returned ()
  RegisterServiceService := fun _ _ => Outcome.returned ()
  Serve := serve

/-- How a run of `main` ends: it returns, `log.Fatal` ends the process, `Serve` keeps
serving, or a panic that nothing recovers ends the process. -/
inductive Exit where
  | returned
  | fatal (logged : GoError)
  | serving
  | panicked (reason : String)
deriving DecidableEq, Repr

/-- The state of a run of `main`: the `Impl` objects it allocated, the trace of its calls,
the value of the variable `err` once `s.Serve()` has returned (`none` before that), and how
the run ended. -/
structure Run where
  impls : List Impl
  trace : List Event
  err : Option (Option GoError)
  exit : Exit
deriving DecidableEq, Repr

/-- The function `main` of `main.go`, given the behaviour of the framework. It has no
`recover`: a panic of a framework call ends the run at that call. -/
def main (fw : Framework) : Run :=
  -- s := trpc.NewServer()
  let t0 : List Event := [Event.NewServer []]
  match fw.NewServer with
  | Outcome.panicked reason =>
    { impls := [], trace := t0, err := none, exit := Exit.panicked reason }
  | Outcome.returned _ =>
    -- impl := Impl{}
    let impls : List Impl := [{}]
    let impl : Ptr := some 0
    -- pb.RegisterServiceService(s.Service("trpc.test.helloworld.GreeterHTTP"), &impl)
    let t1 := t0 ++ [Event.Service "trpc.test.helloworld.GreeterHTTP"]
    match fw.Service "trpc.test.helloworld.GreeterHTTP" with
    | Outcome.panicked reason =>
      { impls := impls, trace := t1, err := none, exit := Exit.panicked reason }
    | Outcome.returned _ =>
      let svc : ServiceHandle := { name := "trpc.test.helloworld.GreeterHTTP" }
      let t2 := t1 ++ [Event.RegisterServiceService svc impl]
      match fw.RegisterServiceService svc impl with
      | Outcome.panicked reason =>
        { impls := impls, trace := t2, err := none, exit := Exit.panicked reason }
      | Outcome.returned _ =>
        -- if err := s.Serve(); err != nil { log.Fatal(err) }
        let t3 := t2 ++ [Event.Serve]
        match fw.Serve with
        | ServeResult.blocks =>
          { impls := impls, trace := t3, err := none, exit := Exit.serving }
        | ServeResult.panics reason =>
          { impls := impls, trace := t3, err := none, exit := Exit.panicked reason }
        | ServeResult.returns none =>
          { impls := impls, trace := t3, err := some none, exit := Exit.returned }
        | ServeResult.returns (some err) =>
          { impls := impls, trace := t3 ++ [Event.Fatal err], err := some (some err),
            exit := Exit.fatal err }

/-- The four framework calls of a run of `main` that gets as far as `Serve`, in order. -/
def startup : List Event :=
  [Event.NewServer [], Event.Service "trpc.test.helloworld.GreeterHTTP",
    Event.RegisterServiceService { name := "trpc.test.helloworld.GreeterHTTP" } (some 0),
    Event.Serve]

/-- Whether the three framework calls that `main` makes before `Serve` return. -/
def Framework.starts (fw : Framework) : Prop :=
  fw.NewServer = Outcome.returned () ∧
  fw.Service "trpc.test.helloworld.GreeterHTTP" = Outcome.returned () ∧
  fw.RegisterServiceService { name := "trpc.test.helloworld.GreeterHTTP" } (some 0) =
    Outcome.returned ()

/-- Whether an event is a call of `log.Fatal`. -/
def Event.isFatal : Event → Bool
  | Event.Fatal _ => true
  | _ => false

/-- Whether an event is a registration of a handler. -/
def Event.isRegister : Event → Bool
  | Event.RegisterServiceService _ _ => true
  | _ => false

/-! ## Helper lemmas -/

theorem observe_Hello {Ctx Req : Type} (h : Heap Req) (i : Ptr) (ctx : Option Ctx) (req : Ptr) :
    observe (Impl.Hello h i ctx req) = Outcome.returned (some { Msg := "Hello " }, none) := by
  simp [observe, Impl.Hello, Heap.response]

theorem Hello_outcome {Ctx Req : Type} (h : Heap Req) (i : Ptr) (ctx : Option Ctx) (req : Ptr) :
    (Impl.Hello h i ctx req).2 = Outcome.returned (some h.rsps.length, none) := rfl

theorem Hello_heap {Ctx Req : Type} (h : Heap Req) (i : Ptr) (ctx : Option Ctx) (req : Ptr) :
    (Impl.Hello h i ctx req).1 =
      { impls := h.impls, reqs := h.reqs, rsps := h.rsps ++ [{ Msg := "Hello " }] } := rfl

theorem runCalls_eq_replicate {Ctx Req : Type} (i : Ptr) (calls : List (Option Ctx × Ptr)) :
    ∀ h : Heap Req, runCalls i h calls =
      List.replicate calls.length (Outcome.returned (some { Msg := "Hello " }, none)) := by
  induction calls with
  | nil => intro h; rfl
  | cons c rest ih =>
    intro h
    obtain ⟨ctx, req⟩ := c
    simp only [runCalls, observe_Hello, ih, List.length_cons, List.replicate_succ]

theorem getOpt_set_of_some {α : Type} {l : List α} {k : Nat} {g : α} (g1 : α)
    (hk : l[k]? = some g) (j : Nat) :
    (l.set k g1)[j]? = if j = k then some g1 else l[j]? := by
  have hlt : k < l.length := by
    by_contra hge
    rw [List.getElem?_eq_none (Nat.le_of_not_lt hge)] at hk
    cases hk
  rw [List.getElem?_set]
  by_cases hjk : j = k
  · subst hjk
    simp [hlt]
  · have hkj : ¬ k = j := fun e => hjk e.symm
    simp [hjk, hkj]

theorem getOpt_lt_of_some {α : Type} {l : List α} {k : Nat} {g : α} (hk : l[k]? = some g) :
    k < l.length := by
  by_contra hge
  rw [List.getElem?_eq_none (Nat.le_of_not_lt hge)] at hk
  cases hk

theorem set_same_of_some {α : Type} {l : List α} {k : Nat} {g : α} (hk : l[k]? = some g) :
    l.set k g = l := by
  apply List.ext_getElem?
  intro j
  rw [getOpt_set_of_some g hk j]
  by_cases hjk : j = k
  · subst hjk
    simp [hk]
  · simp [hjk]

theorem machine_step_length {Ctx Req : Type} (m : Machine Ctx Req) (k : Nat) :
    (m.step k).goroutines.length = m.goroutines.length := by
  unfold Machine.step
  split <;> simp

theorem machine_run_length {Ctx Req : Type} (schedule : List Nat) :
    ∀ m : Machine Ctx Req, (m.run schedule).goroutines.length = m.goroutines.length := by
  induction schedule with
  | nil => intro m; rfl
  | cons k rest ih =>
    intro m
    rw [Machine.run, ih, machine_step_length]

theorem sound_held_lt {Ctx Req : Type} {h : Heap Req} {m : Machine Ctx Req}
    (hs : m.Sound h) {j : Nat} {g : Goroutine Ctx} {a : Nat}
    (hj : m.goroutines[j]? = some g) (ha : g.held = some a) :
    m.heap.rsps[a]? = some { Msg := "Hello " } ∧ h.rsps.length ≤ a := by
  obtain ⟨-, -, -, hshape, -⟩ := hs
  rcases hshape j g hj with ⟨i, ctx, req, hc⟩ | ⟨b, hform, hval, hle⟩
  · subst hc
    cases ha
  · rcases hform with hf | hf
    · subst hf
      cases ha
      exact ⟨hval, hle⟩
    · subst hf
      cases ha
      exact ⟨hval, hle⟩

theorem machine_step_sound {Ctx Req : Type} (h : Heap Req) (m : Machine Ctx Req) (k : Nat)
    (hs : m.Sound h) : (m.step k).Sound h := by
  unfold Machine.step
  split
  · exact hs
  · rename_i g hk
    have hheld := fun (j : Nat) (g : Goroutine Ctx) (a : Nat)
      (hj : m.goroutines[j]? = some g) (ha : g.held = some a) => sound_held_lt hs hj ha
    obtain ⟨himpl, hreq, ⟨t, ht⟩, hshape, hdist⟩ := hs
    cases g with
    | called i ctx req =>
      refine ⟨himpl, hreq, ⟨t ++ [{ Msg := "Hello " }], ?_⟩, ?_, ?_⟩
      · simp [Goroutine.step, ht]
      · intro j g hj
        simp only [Goroutine.step] at hj ⊢
        rw [getOpt_set_of_some _ hk j] at hj
        by_cases hjk : j = k
        · rw [if_pos hjk] at hj
          cases hj
          right
          refine ⟨m.heap.rsps.length, Or.inl rfl, ?_, ?_⟩
          · simp
          · rw [ht]
            simp
        · rw [if_neg hjk] at hj
          rcases hshape j g hj with hc | ⟨a, hform, hval, hle⟩
          · exact Or.inl hc
          · right
            refine ⟨a, hform, ?_, hle⟩
            rw [List.getElem?_append_left (getOpt_lt_of_some hval)]
            exact hval
      · intro j l gj gl a hj hl hja hla
        simp only [Goroutine.step] at hj hl
        rw [getOpt_set_of_some _ hk j] at hj
        rw [getOpt_set_of_some _ hk l] at hl
        by_cases hjk : j = k
        · by_cases hlk : l = k
          · rw [hjk, hlk]
          · rw [if_pos hjk] at hj
            rw [if_neg hlk] at hl
            cases hj
            cases hja
            have := getOpt_lt_of_some (hheld l gl _ hl hla).1
            omega
        · by_cases hlk : l = k
          · rw [if_neg hjk] at hj
            rw [if_pos hlk] at hl
            cases hl
            cases hla
            have := getOpt_lt_of_some (hheld j gj _ hj hja).1
            omega
          · rw [if_neg hjk] at hj
            rw [if_neg hlk] at hl
            exact hdist j l gj gl a hj hl hja hla
    | allocated p =>
      have hp : ∃ a, p = some a ∧ m.heap.rsps[a]? = some { Msg := "Hello " } ∧
          h.rsps.length ≤ a := by
        rcases hshape k _ hk with ⟨i, ctx, req, hc⟩ | ⟨a, hform, hval, hle⟩
        · cases hc
        · rcases hform with hf | hf
          · cases hf
            exact ⟨a, rfl, hval, hle⟩
          · cases hf
      obtain ⟨a0, rfl, hval0, hle0⟩ := hp
      refine ⟨himpl, hreq, ⟨t, ht⟩, ?_, ?_⟩
      · intro j g hj
        simp only [Goroutine.step] at hj ⊢
        rw [getOpt_set_of_some _ hk j] at hj
        by_cases hjk : j = k
        · rw [if_pos hjk] at hj
          cases hj
          exact Or.inr ⟨a0, Or.inr rfl, hval0, hle0⟩
        · rw [if_neg hjk] at hj
          exact hshape j g hj
      · have hold : ∀ (j : Nat) (gj : Goroutine Ctx) (a : Nat),
            (m.goroutines.set k
              (Goroutine.finished (Outcome.returned (some a0, none))))[j]? = some gj →
            gj.held = some a →
            ∃ g0, m.goroutines[j]? = some g0 ∧ g0.held = some a := by
          intro j gj a hj hja
          rw [getOpt_set_of_some _ hk j] at hj
          by_cases hjk : j = k
          · rw [if_pos hjk] at hj
            cases hj
            exact ⟨Goroutine.allocated (some a0), hjk ▸ hk, hja⟩
          · rw [if_neg hjk] at hj
            exact ⟨gj, hj, hja⟩
        intro j l gj gl a hj hl hja hla
        simp only [Goroutine.step] at hj hl
        obtain ⟨g1, hj1, hja1⟩ := hold j gj a hj hja
        obtain ⟨g2, hl2, hla2⟩ := hold l gl a hl hla
        exact hdist j l g1 g2 a hj1 hl2 hja1 hla2
    | finished r =>
      simp only [Goroutine.step]
      rw [set_same_of_some hk]
      exact ⟨himpl, hreq, ⟨t, ht⟩, hshape, hdist⟩

theorem machine_run_sound {Ctx Req : Type} (h : Heap Req) (schedule : List Nat) :
    ∀ m : Machine Ctx Req, m.Sound h → (m.run schedule).Sound h := by
  induction schedule with
  | nil => intro m hs; exact hs
  | cons k rest ih =>
    intro m hs
    exact ih (m.step k) (machine_step_sound h m k hs)

theorem spawn_sound {Ctx Req : Type} (h : Heap Req) (i : Ptr)
    (calls : List (Option Ctx × Ptr)) : (spawn h i calls).Sound h := by
  refine ⟨rfl, rfl, ⟨[], by simp [spawn]⟩, ?_, ?_⟩
  · intro k g hk
    left
    simp only [spawn, List.getElem?_map] at hk
    cases hc : calls[k]? with
    | none =>
      rw [hc] at hk
      cases hk
    | some c =>
      rw [hc] at hk
      cases hk
      exact ⟨i, c.1, c.2, rfl⟩
  · intro k l gk gl a hk hl hka hla
    simp only [spawn, List.getElem?_map] at hk
    cases hc : calls[k]? with
    | none =>
      rw [hc] at hk
      cases hk
    | some c =>
      rw [hc] at hk
      cases hk
      cases hka

theorem goroutine_step_pc {Ctx Req : Type} (h : Heap Req) (g : Goroutine Ctx) :
    (g.step h).2.pc = min 2 (g.pc + 1) := by
  cases g <;> rfl

theorem machine_pc_le {Ctx Req : Type} (m : Machine Ctx Req) (j : Nat) : m.pc j ≤ 2 := by
  unfold Machine.pc
  split
  · rename_i g _
    cases g <;> simp [Goroutine.pc]
  · omega

theorem machine_step_pc {Ctx Req : Type} (m : Machine Ctx Req) (k j : Nat)
    (hj : j < m.goroutines.length) :
    (m.step k).pc j = if j = k then min 2 (m.pc j + 1) else m.pc j := by
  unfold Machine.step
  split
  · rename_i hk
    by_cases hjk : j = k
    · subst hjk
      rw [List.getElem?_eq_none_iff] at hk
      omega
    · simp [hjk]
  · rename_i g hk
    simp only [Machine.pc]
    rw [getOpt_set_of_some _ hk j]
    by_cases hjk : j = k
    · subst hjk
      simp [hk, goroutine_step_pc]
    · simp [hjk]

theorem machine_run_pc {Ctx Req : Type} (schedule : List Nat) :
    ∀ (m : Machine Ctx Req) (j : Nat), j < m.goroutines.length →
      (m.run schedule).pc j = min 2 (m.pc j + schedule.count j) := by
  induction schedule with
  | nil =>
    intro m j _
    have := machine_pc_le m j
    simp only [Machine.run, List.count_nil]
    omega
  | cons k rest ih =>
    intro m j hj
    rw [Machine.run, ih (m.step k) j (by rw [machine_step_length]; exact hj),
      machine_step_pc m k j hj, List.count_cons]
    have := machine_pc_le m j
    by_cases hjk : j = k
    · subst hjk
      simp only [if_true, beq_self_eq_true]
      omega
    · have hkj : (k == j) = false := by
        simp only [beq_eq_false_iff_ne, ne_eq]
        exact fun e => hjk e.symm
      simp only [if_neg hjk, hkj, Bool.false_eq_true, if_false]
      omega

theorem machine_finished_of_pc {Ctx Req : Type} (m : Machine Ctx Req) (j : Nat)
    (hpc : m.pc j = 2) : ∃ r, m.goroutines[j]? = some (Goroutine.finished r) := by
  unfold Machine.pc at hpc
  split at hpc
  · rename_i g hg
    cases g with
    | called i ctx req => cases hpc
    | allocated p => cases hpc
    | finished r => exact ⟨r, hg⟩
  · cases hpc

theorem spawn_pc {Ctx Req : Type} (h : Heap Req) (i : Ptr) (calls : List (Option Ctx × Ptr))
    (j : Nat) : (spawn h i calls).pc j = 0 := by
  simp only [Machine.pc, spawn, List.getElem?_map]
  cases calls[j]? <;> rfl

theorem sound_observe_finished {Ctx Req : Type} {h : Heap Req} {m : Machine Ctx Req}
    (hs : m.Sound h) {k : Nat} {r : Outcome (Ptr × Option GoError)}
    (hk : m.goroutines[k]? = some (Goroutine.finished r)) :
    observe (m.heap, r) = Outcome.returned (some { Msg := "Hello " }, none) := by
  obtain ⟨-, -, -, hshape, -⟩ := hs
  rcases hshape k _ hk with ⟨i, ctx, req, hc⟩ | ⟨a, hform, hval, -⟩
  · cases hc
  · rcases hform with hf | hf
    · cases hf
    · cases hf
      simp [observe, Heap.response, hval]

/-! ## The handler `Hello` -/

/-- C1: for every heap, receiver, context and request, `Hello` returns a non-nil pointer to a
response whose `Msg` is exactly the six-character string "Hello " (H, e, l, l, o and one
space, nothing before or after), together with the nil error. -/
theorem Hello_returns_greeting {Ctx Req : Type} (h : Heap Req) (i : Ptr) (ctx : Option Ctx)
    (req : Ptr) :
    ∃ (a : Nat) (rsp : Response),
      (Impl.Hello h i ctx req).2 = Outcome.returned (some a, none) ∧
      (Impl.Hello h i ctx req).1.response (some a) = some rsp ∧
      rsp.Msg = "Hello " ∧ rsp.Msg.data = ['H', 'e', 'l', 'l', 'o', ' '] := by
  refine ⟨h.rsps.length, { Msg := "Hello " }, rfl, ?_, rfl, rfl⟩
  simp [Impl.Hello, Heap.response]

/-- C2: `Hello` never fails: for every heap, receiver, context and request the call returns
(it does not panic) and the error it returns is nil; no input gives a non-nil error. -/
theorem Hello_never_fails {Ctx Req : Type} (h : Heap Req) (i : Ptr) (ctx : Option Ctx)
    (req : Ptr) :
    (∃ p : Ptr, (Impl.Hello h i ctx req).2 = Outcome.returned (p, none)) ∧
    (¬ ∃ (p : Ptr) (e : GoError), (Impl.Hello h i ctx req).2 = Outcome.returned (p, some e)) ∧
    (¬ ∃ reason : String, (Impl.Hello h i ctx req).2 = Outcome.panicked reason) := by
  refine ⟨⟨_, Hello_outcome h i ctx req⟩, ?_, ?_⟩
  · rintro ⟨p, e, hpe⟩
    rw [Hello_outcome] at hpe
    cases hpe
  · rintro ⟨reason, hr⟩
    rw [Hello_outcome] at hr
    cases hr

/-- C3: `Hello` is a constant function of its inputs: for any two calls, on any heaps,
receivers, contexts and requests (equal or different), the response and the error returned
by the one equal those returned by the other, and so does the response text. -/
theorem Hello_constant {Ctx Req : Type} (h1 h2 : Heap Req) (i1 i2 : Ptr)
    (ctx1 ctx2 : Option Ctx) (req1 req2 : Ptr) :
    observe (Impl.Hello h1 i1 ctx1 req1) = observe (Impl.Hello h2 i2 ctx2 req2) ∧
    responseText (Impl.Hello h1 i1 ctx1 req1) = responseText (Impl.Hello h2 i2 ctx2 req2) := by
  simp [responseText, observe_Hello]

/-- C4: `Hello` is referentially transparent: in every finite sequence of calls made one
after the other on the same receiver, with arbitrary contexts and requests and in whatever
order they come, every call returns what the same call returns when made alone (on any
heap `h0`), so no call depends on the calls made before it. -/
theorem Hello_referentially_transparent {Ctx Req : Type} (i : Ptr) (h h0 : Heap Req)
    (calls : List (Option Ctx × Ptr)) :
    runCalls i h calls = calls.map fun c => observe (Impl.Hello h0 i c.1 c.2) := by
  rw [runCalls_eq_replicate]
  simp only [observe_Hello, List.map_const', eq_self_iff_true]

/-- C5 (as stated, refuted): on a heap with one handler and one request, the text `Hello`
returns for that request is "Hello ", and it is not a text of 18 characters whose 18th
character is a space. -/
theorem Hello_text_not_eighteen_chars :
    responseText (Impl.Hello ({ impls := [{}], reqs := [()], rsps := [] } : Heap Unit)
        (some 0) (some ()) (some 0)) = some "Hello " ∧
    ¬ ∃ t : String,
        responseText (Impl.Hello ({ impls := [{}], reqs := [()], rsps := [] } : Heap Unit)
          (some 0) (some ()) (some 0)) = some t ∧
        t.length = 18 ∧ t.data[17]? = some ' ' := by
  refine ⟨rfl, ?_⟩
  rintro ⟨t, ht, hlen, -⟩
  have h6 : t = "Hello " := by
    simp only [responseText, observe_Hello, Option.some.injEq] at ht
    exact ht.symm
  subst h6
  revert hlen
  decide

/-- C5 (amended): for every request, the text `Hello` returns is the literal string
"Hello ": it has 6 characters, and the character at position 6 (counting from 1), which is
the last one, is a space. -/
theorem Hello_text_six_chars {Ctx Req : Type} (h : Heap Req) (i : Ptr) (ctx : Option Ctx)
    (req : Ptr) :
    ∃ t : String, responseText (Impl.Hello h i ctx req) = some t ∧ t = "Hello " ∧
      t.length = 6 ∧ t.data[5]? = some ' ' ∧ t.data.getLast? = some ' ' := by
  refine ⟨"Hello ", ?_, rfl, rfl, rfl, rfl⟩
  simp [responseText, observe_Hello]

/-- C6: `Hello` has no side effect on its explicit state: after the call the `Impl` objects
(the receiver among them) and the request objects on the heap are what they were before,
the responses allocated before are untouched, and what the call returns does not change
when the request objects and the request pointer are replaced by any others. -/
theorem Hello_no_side_effects {Ctx Req : Type} (h : Heap Req) (i : Ptr) (ctx : Option Ctx)
    (req : Ptr) :
    (Impl.Hello h i ctx req).1.impls = h.impls ∧
    (Impl.Hello h i ctx req).1.reqs = h.reqs ∧
    (Impl.Hello h i ctx req).1.rsps.take h.rsps.length = h.rsps ∧
    ∀ (reqs1 : List Req) (req1 : Ptr),
      observe (Impl.Hello { h with reqs := reqs1 } i ctx req1) =
        observe (Impl.Hello h i ctx req) := by
  refine ⟨rfl, rfl, ?_, ?_⟩
  · simp [Hello_heap]
  · intro reqs1 req1
    rw [observe_Hello, observe_Hello]

/-- C10: `Hello` dereferences none of its arguments and cannot panic: it returns the
response with `Msg` "Hello " and the nil error when the request pointer is nil, when the
context is nil, when the receiver is a nil `*Impl`, when all three are nil, and on a heap
where nothing is allocated, so that no pointer could be followed. -/
theorem Hello_nil_arguments {Ctx Req : Type} (h : Heap Req) (i : Ptr) (ctx : Option Ctx)
    (req : Ptr) :
    observe (Impl.Hello h i ctx none) = Outcome.returned (some { Msg := "Hello " }, none) ∧
    observe (Impl.Hello h i (none : Option Ctx) req) =
      Outcome.returned (some { Msg := "Hello " }, none) ∧
    observe (Impl.Hello h none ctx req) = Outcome.returned (some { Msg := "Hello " }, none) ∧
    observe (Impl.Hello h none (none : Option Ctx) none) =
      Outcome.returned (some { Msg := "Hello " }, none) ∧
    observe (Impl.Hello ({ impls := [], reqs := [], rsps := [] } : Heap Req) i ctx req) =
      Outcome.returned (some { Msg := "Hello " }, none) := by
  simp only [observe_Hello, and_self]

/-- C8: when N calls of `Hello` run concurrently on the same `Impl`, for every N and every
schedule of their steps (every interleaving is one): every call that has returned has
returned a response with `Msg` "Hello " and the nil error; every call that was given its
two steps has returned, so that when all were, all N results are that same value; no two
calls share a response object; the handler objects, the request objects and the responses
allocated before are untouched; and a call that runs alone does what `Hello` does. -/
theorem Hello_concurrent_calls {Ctx Req : Type} (h : Heap Req) (i : Ptr)
    (calls : List (Option Ctx × Ptr)) (schedule : List Nat) :
    ((spawn h i calls).run schedule).goroutines.length = calls.length ∧
    (∀ (k : Nat) (r : Outcome (Ptr × Option GoError)),
      ((spawn h i calls).run schedule).goroutines[k]? = some (Goroutine.finished r) →
      observe (((spawn h i calls).run schedule).heap, r) =
        Outcome.returned (some { Msg := "Hello " }, none)) ∧
    (∀ k : Nat, k < calls.length → 2 ≤ schedule.count k →
      ∃ r, ((spawn h i calls).run schedule).goroutines[k]? = some (Goroutine.finished r)) ∧
    ((∀ k : Nat, k < calls.length → 2 ≤ schedule.count k) →
      ((spawn h i calls).run schedule).results =
        List.replicate calls.length
          (some (Outcome.returned (some { Msg := "Hello " }, none)))) ∧
    (∀ (k l : Nat) (gk gl : Goroutine Ctx) (a : Nat),
      ((spawn h i calls).run schedule).goroutines[k]? = some gk →
      ((spawn h i calls).run schedule).goroutines[l]? = some gl →
      gk.held = some a → gl.held = some a → k = l) ∧
    ((spawn h i calls).run schedule).heap.impls = h.impls ∧
    ((spawn h i calls).run schedule).heap.reqs = h.reqs ∧
    ((spawn h i calls).run schedule).heap.rsps.take h.rsps.length = h.rsps ∧
    (∀ (ctx : Option Ctx) (req : Ptr),
      (spawn h i [(ctx, req)]).run [0, 0] =
        { heap := (Impl.Hello h i ctx req).1,
          goroutines := [Goroutine.finished (Impl.Hello h i ctx req).2] }) := by
  have hs : ((spawn h i calls).run schedule).Sound h :=
    machine_run_sound h schedule _ (spawn_sound h i calls)
  have hlen : ((spawn h i calls).run schedule).goroutines.length = calls.length := by
    rw [machine_run_length]
    simp [spawn]
  have hfin : ∀ k : Nat, k < calls.length → 2 ≤ schedule.count k →
      ∃ r, ((spawn h i calls).run schedule).goroutines[k]? = some (Goroutine.finished r) := by
    intro k hk hcount
    apply machine_finished_of_pc
    rw [machine_run_pc schedule _ k (by simpa [spawn] using hk), spawn_pc]
    omega
  refine ⟨hlen, fun k r hk => sound_observe_finished hs hk, hfin, ?_, hs.2.2.2.2, hs.1, hs.2.1, ?_,
    fun ctx req => rfl⟩
  · intro hall
    rw [List.eq_replicate_iff]
    refine ⟨by simp [Machine.results, hlen], ?_⟩
    intro b hb
    simp only [Machine.results, List.mem_map] at hb
    obtain ⟨g, hg, rfl⟩ := hb
    obtain ⟨k, hklt, hkg⟩ := List.getElem_of_mem hg
    have hkget : ((spawn h i calls).run schedule).goroutines[k]? = some g := by
      rw [List.getElem?_eq_getElem hklt, hkg]
    obtain ⟨r, hr⟩ := hfin k (hlen ▸ hklt) (hall k (hlen ▸ hklt))
    rw [hkget] at hr
    cases hr
    simp only [sound_observe_finished hs hkget]
  · obtain ⟨t, ht⟩ := hs.2.2.1
    rw [ht]
    simp

/-- C8 at a concrete input: three concurrent calls on the receiver at address 0, with a nil
and two non-nil requests, stepped in the order 0, 1, 0, 2, 2, 1, have all returned the
response with `Msg` "Hello " and the nil error. -/
theorem Hello_concurrent_calls_witness :
    ((spawn ({ impls := [{}], reqs := [(), ()], rsps := [] } : Heap Unit) (some 0)
        [(some (), none), (none, some 0), (some (), some 1)]).run [0, 1, 0, 2, 2, 1]).results =
      List.replicate 3 (some (Outcome.returned (some { Msg := "Hello " }, none))) :=
  (Hello_concurrent_calls ({ impls := [{}], reqs := [(), ()], rsps := [] } : Heap Unit) (some 0)
    [(some (), none), (none, some 0), (some (), some 1)] [0, 1, 0, 2, 2, 1]).2.2.2.1
    (by decide)

/-! ## The entry point `main` -/

/-- C7: `main` ends in `log.Fatal` if and only if the call of `Serve` returns a non-nil
error, and the value it logs is exactly the error `Serve` returned; when `Serve` returns
nil, `log.Fatal` is not called and `main` returns normally. Stated first for the frameworks
whose calls before `Serve` return, in terms of what `Serve` does, then for every framework,
in terms of the value `err` that the call of `Serve` returned in the run. -/
theorem main_fatal_iff_Serve_error (fw : Framework) (serve : ServeResult) (e : GoError) :
    ((main (Framework.starting serve)).exit = Exit.fatal e ↔
      serve = ServeResult.returns (some e)) ∧
    (Event.Fatal e ∈ (main (Framework.starting serve)).trace ↔
      serve = ServeResult.returns (some e)) ∧
    ((main (Framework.starting serve)).trace.any Event.isFatal = true ↔
      ∃ err : GoError, serve = ServeResult.returns (some err)) ∧
    (main (Framework.starting (ServeResult.returns none))).exit = Exit.returned ∧
    (main (Framework.starting (ServeResult.returns none))).trace.any Event.isFatal = false ∧
    ((main fw).exit = Exit.fatal e ↔ (main fw).err = some (some e)) ∧
    (Event.Fatal e ∈ (main fw).trace ↔ (main fw).err = some (some e)) ∧
    ((main fw).trace.any Event.isFatal = true ↔
      ∃ err : GoError, (main fw).err = some (some err)) ∧
    ((main fw).err = some (some e) ↔ fw.starts ∧ fw.Serve = ServeResult.returns (some e)) ∧
    ((main fw).err = some none ↔ fw.starts ∧ fw.Serve = ServeResult.returns none) ∧
    ((main fw).err = some none ↔
      (main fw).exit = Exit.returned ∧ (main fw).trace.any Event.isFatal = false) := by
  refine ⟨?_, ?_, ?_, rfl, by decide, ?_⟩
  · rcases serve with _ | (_ | err) | r <;> simp [main, Framework.starting, eq_comm]
  · rcases serve with _ | (_ | err) | r <;> simp [main, Framework.starting, eq_comm]
  · rcases serve with _ | (_ | err) | r <;> simp [main, Framework.starting, Event.isFatal]
  · rcases h1 : fw.NewServer with u | r
    · rcases h2 : fw.Service "trpc.test.helloworld.GreeterHTTP" with u | r
      · rcases h3 : fw.RegisterServiceService
            { name := "trpc.test.helloworld.GreeterHTTP" } (some 0) with u | r
        · rcases h4 : fw.Serve with _ | (_ | err) | r <;>
            simp [main, Framework.starts, h1, h2, h3, h4, Event.isFatal, eq_comm]
        · simp [main, Framework.starts, h1, h2, h3, Event.isFatal]
      · simp [main, Framework.starts, h1, h2, Event.isFatal]
    · simp [main, Framework.starts, h1, Event.isFatal]

/-- C9 (as stated, refuted): with a framework whose `NewServer` panics, the run of `main`
makes that call and no other, and with one whose registration panics the run stops at the
registration: in both runs `Serve` is not called at all, so it is not called exactly once. -/
theorem main_panics_before_Serve :
    (main { NewServer := Outcome.panicked "no configuration file",
            Service := fun _ => Outcome.returned (),
            RegisterServiceService := fun _ _ => Outcome.returned (),
            Serve := ServeResult.blocks }).trace = [Event.NewServer []] ∧
    ¬ (main { NewServer := Outcome.panicked "no configuration file",
              Service := fun _ => Outcome.returned (),
              RegisterServiceService := fun _ _ => Outcome.returned (),
              Serve := ServeResult.blocks }).trace.count Event.Serve = 1 ∧
    (main { NewServer := Outcome.returned (),
            Service := fun _ => Outcome.returned (),
            RegisterServiceService := fun _ _ => Outcome.panicked "service not configured",
            Serve := ServeResult.blocks }).trace = startup.take 3 ∧
    ¬ (main { NewServer := Outcome.returned (),
              Service := fun _ => Outcome.returned (),
              RegisterServiceService := fun _ _ => Outcome.panicked "service not configured",
              Serve := ServeResult.blocks }).trace.count Event.Serve = 1 := by
  decide

/-- C9 (amended): on every run, whatever the framework does, the calls `main` makes are, in
this order and up to the first one that panics: the construction of a server with no option,
the request for the service named "trpc.test.helloworld.GreeterHTTP", the registration on it
of one handler, a pointer to the `Impl` value `main` allocated, and `Serve`, which only a
call of `log.Fatal` may follow. `Serve` is called at most once, a handler is registered at
most once, and `Serve` is called exactly when the three calls before it return; then all
four calls are made, once each, the registration before `Serve`. -/
theorem main_registers_then_serves (fw : Framework) :
    (main fw).trace.take 4 = startup.take (main fw).trace.length ∧
    ((main fw).trace.drop 4).all Event.isFatal = true ∧
    (main fw).trace.count Event.Serve ≤ 1 ∧
    ((main fw).trace.filter Event.isRegister).length ≤ 1 ∧
    (Event.Serve ∈ (main fw).trace ↔ fw.starts) ∧
    (fw.starts ↔
      (main fw).trace.take 4 = startup ∧
      (main fw).impls[0]? = some Impl.mk ∧
      ((main fw).trace.filter Event.isRegister).length = 1 ∧
      (main fw).trace.count Event.Serve = 1 ∧
      (main fw).trace.indexOf (Event.RegisterServiceService
          { name := "trpc.test.helloworld.GreeterHTTP" } (some 0)) <
        (main fw).trace.indexOf Event.Serve) := by
  rcases h1 : fw.NewServer with u | r
  · rcases h2 : fw.Service "trpc.test.helloworld.GreeterHTTP" with u | r
    · rcases h3 : fw.RegisterServiceService
          { name := "trpc.test.helloworld.GreeterHTTP" } (some 0) with u | r
      · rcases h4 : fw.Serve with _ | (_ | err) | r <;>
          simp [main, startup, Framework.starts, h1, h2, h3, h4, Event.isFatal,
            Event.isRegister, List.filter, List.count_cons, List.indexOf_cons]
      · simp [main, startup, Framework.starts, h1, h2, h3, Event.isFatal,
          Event.isRegister, List.filter, List.count_cons, List.indexOf_cons]
    · simp [main, startup, Framework.starts, h1, h2, Event.isFatal,
        Event.isRegister, List.filter, List.count_cons, List.indexOf_cons]
  · simp [main, startup, Framework.starts, h1, Event.isFatal,
      Event.isRegister, List.filter, List.count_cons, List.indexOf_cons]

end Agent
